import Mathlib

/-!
# Verification of the Timeline Reconstruction & Deterministic Anomaly Engine

This file gives a shallow embedding, in Lean 4, of the core analysis code of
the Shecodes mobile-forensics repository:

* `src/analysis/anomaly_analysis.py` — timestamp normalization, the anomaly
  rule battery (timestamp gaps, post-deletion activity, temporal
  inconsistencies, data inconsistencies), severity classification, and report
  persistence;
* `src/timeline/timeline_builder.py` — the unified timeline merger.

Python dictionaries of evidence records are modelled by the `Record`
structure, where `Option` distinguishes an absent key (`none`) from a present
one (`some _`); the value stored under `parsed_timestamp` may itself be the
Python value `None`, hence the nested `Option (Option DateTime)`.  Python
dictionaries keyed by source name are modelled by association lists in
insertion order (Python dicts iterate in insertion order).  Python operations
that can raise (`d[k]` subscripting, comparison of `None` with `datetime`)
are modelled in the `Except String` monad, the error string naming the Python
exception class.  Python's stable `list.sort` / `sorted` is modelled by a
stable insertion sort over the same comparator: for a total comparator both
produce the same (unique stable-sorted) list, and for the partial comparator
arising from `None` keys, a two-element list forces the same single
comparison in any sorting algorithm.
-/

/-! ## Dates and times

`datetime.datetime` values produced by `datetime.strptime(s, "%Y-%m-%d
%H:%M:%S")` (no microseconds, no timezone).  `toOrdinal` is Python's
`date.toordinal`: the proleptic-Gregorian day number with `0001-01-01`
mapping to 1. -/

def isLeap (y : Nat) : Bool :=
  y % 4 == 0 && (y % 100 != 0 || y % 400 == 0)

def daysInMonth (y m : Nat) : Nat :=
  if m = 2 then (if isLeap y then 29 else 28)
  else if m = 4 ∨ m = 6 ∨ m = 9 ∨ m = 11 then 30
  else 31

def daysBeforeMonth (y m : Nat) : Nat :=
  (List.range (m - 1)).foldl (fun acc i => acc + daysInMonth y (i + 1)) 0

def toOrdinal (y m d : Nat) : Nat :=
  (y - 1) * 365 + (y - 1) / 4 - (y - 1) / 100 + (y - 1) / 400
    + daysBeforeMonth y m + d

structure DateTime where
  year : Nat
  month : Nat
  day : Nat
  hour : Nat
  minute : Nat
  second : Nat
deriving DecidableEq, Repr

/-- Total seconds from the proleptic origin; Python compares and subtracts
valid `datetime` values exactly as this number compares and subtracts. -/
def DateTime.toSecs (t : DateTime) : Nat :=
  toOrdinal t.year t.month t.day * 86400
    + t.hour * 3600 + t.minute * 60 + t.second

def pad2 (n : Nat) : String :=
  if n < 10 then "0" ++ toString n else toString n

def pad4 (n : Nat) : String :=
  if n < 10 then "000" ++ toString n
  else if n < 100 then "00" ++ toString n
  else if n < 1000 then "0" ++ toString n
  else toString n

/-- `strftime("%Y-%m-%d %H:%M:%S")`. -/
def fmtDT (t : DateTime) : String :=
  pad4 t.year ++ "-" ++ pad2 t.month ++ "-" ++ pad2 t.day ++ " "
    ++ pad2 t.hour ++ ":" ++ pad2 t.minute ++ ":" ++ pad2 t.second

/-! ## `datetime.strptime(s, "%Y-%m-%d %H:%M:%S")`

CPython's `_strptime` compiles the format into a regular expression
(alternatives tried left to right, with backtracking) and then requires the
match to span the whole input; the captured fields are passed to the
`datetime` constructor, which validates ranges.  The field patterns are:
`%Y` = four digits; `%m` = `1[0-2]|0[1-9]|[1-9]`;
`%d` = `3[0-1]|[1-2]\d|0[1-9]|[1-9]| [1-9]`; `%H` = `2[0-3]|[0-1]\d|\d`;
`%M` = `[0-5]\d|\d`; `%S` = `6[0-1]|[0-5]\d|\d`; a literal space in the
format matches one or more whitespace characters.  Each field matcher below
returns the possible `(value, rest)` pairs in the regex's preference order,
and `tryAlts` realizes the backtracking. -/

def dv (c : Char) : Nat := c.toNat - 48

def digitIn (lo hi : Char) (c : Char) : Bool := lo ≤ c && c ≤ hi

def parseY : List Char → List (Nat × List Char)
  | a :: b :: c :: d :: rest =>
    if a.isDigit && b.isDigit && c.isDigit && d.isDigit then
      [(dv a * 1000 + dv b * 100 + dv c * 10 + dv d, rest)]
    else []
  | _ => []

def parseMon : List Char → List (Nat × List Char)
  | a :: b :: rest =>
    (if a = '1' && digitIn '0' '2' b then [(10 + dv b, rest)] else [])
      ++ (if a = '0' && digitIn '1' '9' b then [(dv b, rest)] else [])
      ++ (if digitIn '1' '9' a then [(dv a, b :: rest)] else [])
  | a :: rest =>
    if digitIn '1' '9' a then [(dv a, rest)] else []
  | [] => []

def parseDay : List Char → List (Nat × List Char)
  | a :: b :: rest =>
    (if a = '3' && digitIn '0' '1' b then [(30 + dv b, rest)] else [])
      ++ (if digitIn '1' '2' a && b.isDigit then [(dv a * 10 + dv b, rest)] else [])
      ++ (if a = '0' && digitIn '1' '9' b then [(dv b, rest)] else [])
      ++ (if digitIn '1' '9' a then [(dv a, b :: rest)] else [])
      ++ (if a = ' ' && digitIn '1' '9' b then [(dv b, rest)] else [])
  | a :: rest =>
    if digitIn '1' '9' a then [(dv a, rest)] else []
  | [] => []

def parseHour : List Char → List (Nat × List Char)
  | a :: b :: rest =>
    (if a = '2' && digitIn '0' '3' b then [(20 + dv b, rest)] else [])
      ++ (if digitIn '0' '1' a && b.isDigit then [(dv a * 10 + dv b, rest)] else [])
      ++ (if a.isDigit then [(dv a, b :: rest)] else [])
  | a :: rest =>
    if a.isDigit then [(dv a, rest)] else []
  | [] => []

def parseMin : List Char → List (Nat × List Char)
  | a :: b :: rest =>
    (if digitIn '0' '5' a && b.isDigit then [(dv a * 10 + dv b, rest)] else [])
      ++ (if a.isDigit then [(dv a, b :: rest)] else [])
  | a :: rest =>
    if a.isDigit then [(dv a, rest)] else []
  | [] => []

def parseSec : List Char → List (Nat × List Char)
  | a :: b :: rest =>
    (if a = '6' && digitIn '0' '1' b then [(60 + dv b, rest)] else [])
      ++ (if digitIn '0' '5' a && b.isDigit then [(dv a * 10 + dv b, rest)] else [])
      ++ (if a.isDigit then [(dv a, b :: rest)] else [])
  | a :: rest =>
    if a.isDigit then [(dv a, rest)] else []
  | [] => []

def tryAlts {α : Type} (alts : List (Nat × List Char))
    (k : Nat → List Char → Option α) : Option α :=
  match alts with
  | [] => none
  | (v, rest) :: more =>
    match k v rest with
    | some r => some r
    | none => tryAlts more k

def parseLit (ch : Char) : List Char → Option (List Char)
  | c :: rest => if c = ch then some rest else none
  | [] => none

def pyIsSpace (c : Char) : Bool :=
  c = ' ' || c = '\t' || c = '\n' || c = '\x0d' || c = '\x0b' || c = '\x0c'

/-- The format's literal space compiles to one-or-more whitespace; the next
token is always a digit class, so maximal munch coincides with the regex. -/
def parseWs (cs : List Char) : Option (List Char) :=
  let ws := cs.takeWhile pyIsSpace
  if ws.isEmpty then none else some (cs.drop ws.length)

def matchFormat (cs : List Char) : Option (Nat × Nat × Nat × Nat × Nat × Nat) :=
  tryAlts (parseY cs) fun y r1 =>
  (parseLit '-' r1).bind fun r2 =>
  tryAlts (parseMon r2) fun mo r3 =>
  (parseLit '-' r3).bind fun r4 =>
  tryAlts (parseDay r4) fun d r5 =>
  (parseWs r5).bind fun r6 =>
  tryAlts (parseHour r6) fun h r7 =>
  (parseLit ':' r7).bind fun r8 =>
  tryAlts (parseMin r8) fun mi r9 =>
  (parseLit ':' r9).bind fun r10 =>
  tryAlts (parseSec r10) fun s r11 =>
  if r11.isEmpty then some (y, mo, d, h, mi, s) else none

/-- `datetime.strptime(s, "%Y-%m-%d %H:%M:%S")`, returning `none` where
Python raises `ValueError`: regex mismatch, or constructor validation
(`MINYEAR <= year`, day within the month, second at most 59 — the regex
admits leap seconds 60/61 but the constructor rejects them). -/
def parseTimestamp (s : String) : Option DateTime :=
  (matchFormat s.data).bind fun v =>
    match v with
    | (y, mo, d, h, mi, sec) =>
      if 1 ≤ y ∧ d ≤ daysInMonth y mo ∧ sec ≤ 59 then
        some ⟨y, mo, d, h, mi, sec⟩
      else none

/-! ## Evidence records and anomalies

`Record` models one evidence dictionary.  `none` in a field means the key is
absent from the dict; `parsed_timestamp`'s stored value may itself be the
Python `None` (inner `none`).  `extra` carries any further keys (none of the
modelled names) so that field preservation is about the whole dict. -/

structure Record where
  timestamp : Option String := none
  source : Option String := none
  type_ : Option String := none
  details : Option String := none
  parsed_timestamp : Option (Option DateTime) := none
  timestamp_valid : Option Bool := none
  timeline_order : Option Nat := none
  extra : List (String × String) := []
deriving DecidableEq, Repr

/-- A detector finding: the code always populates these four keys. -/
structure Anomaly where
  timestamp : String
  source : String
  type_ : String
  details : String
deriving DecidableEq, Repr

/-- Evidence keyed by source name, in dict insertion order. -/
abbrev EvidenceData := List (String × List Record)

/-! ## `normalize_timestamps` (anomaly_analysis.py lines 100-145)

Per record: parse `evidence["timestamp"]` with `strptime`; on success copy
the record and add `parsed_timestamp` and `timestamp_valid=True`; on
`ValueError`/`KeyError` copy the record, set `timestamp_valid=False` and set
`parsed_timestamp` to `None` (the key is present, its value is `None`). -/

def normRec (r : Record) : Record :=
  match r.timestamp with
  | some s =>
    match parseTimestamp s with
    | some t => { r with parsed_timestamp := some (some t), timestamp_valid := some true }
    | none => { r with timestamp_valid := some false, parsed_timestamp := some none }
  | none => { r with timestamp_valid := some false, parsed_timestamp := some none }

def normalize_timestamps (evidence_data : EvidenceData) : EvidenceData :=
  evidence_data.map fun p => (p.1, p.2.map normRec)

/-! ## Python partial operations in the `Except` monad -/

/-- `d["parsed_timestamp"]` — `KeyError` when the key is absent. -/
def getParsedTs (r : Record) : Except String (Option DateTime) :=
  match r.parsed_timestamp with
  | some v => .ok v
  | none => .error "KeyError"

/-- `d["timestamp"]` — `KeyError` when the key is absent. -/
def getRawTs (r : Record) : Except String String :=
  match r.timestamp with
  | some v => .ok v
  | none => .error "KeyError"

/-- `d.get("parsed_timestamp", datetime.min)`; `datetime.min` is
`0001-01-01 00:00:00`. -/
def getParsedTsD (r : Record) : Option DateTime :=
  match r.parsed_timestamp with
  | some v => v
  | none => some ⟨1, 1, 1, 0, 0, 0⟩

/-- `a < b` on sort keys: defined between two `datetime`s, a `TypeError`
as soon as `None` is involved. -/
def pyLtKey (a b : Option DateTime) : Except String Bool :=
  match a, b with
  | some x, some y => .ok (decide (x.toSecs < y.toSecs))
  | _, _ => .error "TypeError"

/-- `a - b` on two parsed timestamps (a `timedelta`, in seconds). -/
def pySubTs (a b : Option DateTime) : Except String Int :=
  match a, b with
  | some x, some y => .ok ((x.toSecs : Int) - (y.toSecs : Int))
  | _, _ => .error "TypeError"

/-- `a > b` against a parsed timestamp (`TypeError` on `None`). -/
def pyGtTs (a b : Option DateTime) : Except String Bool :=
  match a, b with
  | some x, some y => .ok (decide (y.toSecs < x.toSecs))
  | _, _ => .error "TypeError"

/-- `deletion_time.strftime(...)` — `AttributeError` when the value is
`None`. -/
def pyStrftime (a : Option DateTime) : Except String String :=
  match a with
  | some t => .ok (fmtDT t)
  | none => .error "AttributeError"

/-! ## Python's stable sort over a partial comparator

`list.sort(key=...)` computes all keys first, then stable-sorts using only
`<` on keys.  With a total comparator, any stable sort returns the unique
stable-sorted list, so the insertion sort below agrees with Timsort; errors
are only relied on for two-element lists, where every sorting algorithm must
perform the same single key comparison. -/

def pyInsertE {κ α : Type} (lt : κ → κ → Except String Bool) (x : κ × α) :
    List (κ × α) → Except String (List (κ × α))
  | [] => .ok [x]
  | y :: ys => do
    let b ← lt y.1 x.1
    if b then
      let rest ← pyInsertE lt x ys
      pure (y :: rest)
    else
      pure (x :: y :: ys)

def pySortE {κ α : Type} (lt : κ → κ → Except String Bool) :
    List (κ × α) → Except String (List (κ × α))
  | [] => .ok []
  | x :: xs => do
    let s ← pySortE lt xs
    pyInsertE lt x s

/-- Structural-recursion variants of `mapM`/`filterM` for `Except`, with
Python's left-to-right effect order. -/
def pyMapE {α β : Type} (f : α → Except String β) :
    List α → Except String (List β)
  | [] => .ok []
  | x :: xs => do
    let y ← f x
    let ys ← pyMapE f xs
    pure (y :: ys)

def pyFilterE {α : Type} (p : α → Except String Bool) :
    List α → Except String (List α)
  | [] => .ok []
  | x :: xs => do
    let b ← p x
    let rest ← pyFilterE p xs
    if b then pure (x :: rest) else pure rest

/-! ## `detect_timestamp_gaps` (anomaly_analysis.py lines 148-198)

Per source: keep records where `e.get("timestamp_valid", False)` is truthy;
skip sources with fewer than two; sort the (fresh) filtered list by
`x["parsed_timestamp"]`; for each consecutive pair, flag a gap when
`time_diff.total_seconds() > 24 * 3600`, with
`time_diff.days = total_seconds // 86400` in the message. -/

def isTsValid (r : Record) : Bool :=
  match r.timestamp_valid with
  | some b => b
  | none => false

def mkGapAnomaly (now : DateTime) (src : String) (tdiff : Int)
    (ps cs : String) : Anomaly :=
  { timestamp := fmtDT now, source := src, type_ := "timestamp_gap",
    details := "Gap of " ++ toString (Int.fdiv tdiff 86400)
      ++ " days detected between " ++ ps ++ " and " ++ cs }

def gapPairs (now : DateTime) (src : String) :
    List Record → Except String (List Anomaly)
  | [] => .ok []
  | [_] => .ok []
  | p :: c :: rest => do
    let pk ← getParsedTs p
    let ck ← getParsedTs c
    let tdiff ← pySubTs ck pk
    if tdiff > 86400 then do
      let ps ← getRawTs p
      let cs ← getRawTs c
      let tail ← gapPairs now src (c :: rest)
      pure (mkGapAnomaly now src tdiff ps cs :: tail)
    else
      gapPairs now src (c :: rest)

def sortByParsedTs (l : List Record) : Except String (List Record) := do
  let pairs ← pyMapE (fun r => do
    let k ← getParsedTs r
    pure (k, r)) l
  let s ← pySortE pyLtKey pairs
  pure (s.map Prod.snd)

def detect_timestamp_gaps (now : DateTime) (evidence_data : EvidenceData) :
    Except String (List Anomaly) := do
  let parts ← pyMapE (fun p => do
    let valid := p.2.filter isTsValid
    if valid.length < 2 then
      pure []
    else do
      let sorted ← sortByParsedTs valid
      gapPairs now p.1 sorted) evidence_data
  pure parts.flatten

/-! ## `detect_post_deletion_activity` (anomaly_analysis.py lines 201-252)

Per source, the code first mutates the shared list in place:
`evidence_list.sort(key=lambda x: x.get("parsed_timestamp", datetime.min))`.
It then collects the deletion instants (`type == "deleted"` and truthy
`timestamp_valid`, reading `evidence["parsed_timestamp"]`), and for each one
counts records with truthy `timestamp_valid`, `evidence["parsed_timestamp"]
> deletion_time` and `type != "deleted"` (Python `and` short-circuits, so
the subscript and comparison only run on truthy-valid records).  Because the
in-place sort changes the caller's data, the embedding returns the
post-state of the evidence mapping alongside the findings. -/

def pdaCond (dt : Option DateTime) (r : Record) : Except String Bool :=
  if isTsValid r then do
    let pt ← getParsedTs r
    let gt ← pyGtTs pt dt
    if gt then pure (decide (r.type_ ≠ some "deleted")) else pure false
  else
    pure false

def mkPdaAnomaly (now : DateTime) (src : String) (n : Nat)
    (delTs : String) : Anomaly :=
  { timestamp := fmtDT now, source := src, type_ := "post_deletion_activity",
    details := toString n ++ " events detected after deletion at " ++ delTs }

def pdaSource (now : DateTime) (p : String × List Record) :
    Except String (List Anomaly × (String × List Record)) := do
  let keyed := p.2.map fun r => (getParsedTsD r, r)
  let sortedPairs ← pySortE pyLtKey keyed
  let sl := sortedPairs.map Prod.snd
  let dels := sl.filter fun r => r.type_ == some "deleted" && isTsValid r
  let deletion_timestamps ← pyMapE getParsedTs dels
  let anoms ← pyMapE (fun dt => do
    let acts ← pyFilterE (pdaCond dt) sl
    if acts.length > 0 then do
      let delTs ← pyStrftime dt
      pure [mkPdaAnomaly now p.1 acts.length delTs]
    else
      pure []) deletion_timestamps
  pure (anoms.flatten, (p.1, sl))

def detect_post_deletion_activity (now : DateTime)
    (evidence_data : EvidenceData) :
    Except String (List Anomaly × EvidenceData) := do
  let results ← pyMapE (pdaSource now) evidence_data
  pure ((results.map Prod.fst).flatten, results.map Prod.snd)

/-! ## `detect_temporal_inconsistencies` (anomaly_analysis.py lines 255-300)

For every truthy-valid record, flag `future_timestamp` when
`evidence["parsed_timestamp"] > current_time`.  `datetime.now()` is threaded
in as the `now` parameter (it carries sub-second precision in Python, but an
integral event instant exceeds it iff it exceeds its whole-second part). -/

def mkFutureAnomaly (now : DateTime) (src : String) (ts : String) : Anomaly :=
  { timestamp := fmtDT now, source := src, type_ := "future_timestamp",
    details := "Event timestamp " ++ ts ++ " is in the future" }

def futureLoop (now : DateTime) (src : String) :
    List Record → Except String (List Anomaly)
  | [] => .ok []
  | r :: rest => do
    let et ← getParsedTs r
    let gt ← pyGtTs et (some now)
    if gt then do
      let ts ← getRawTs r
      let tail ← futureLoop now src rest
      pure (mkFutureAnomaly now src ts :: tail)
    else
      futureLoop now src rest

def detect_temporal_inconsistencies (now : DateTime)
    (evidence_data : EvidenceData) : Except String (List Anomaly) := do
  let parts ← pyMapE (fun p =>
    futureLoop now p.1 (p.2.filter isTsValid)) evidence_data
  pure parts.flatten

/-! ## `detect_data_inconsistencies` (anomaly_analysis.py lines 303-358)

Per source: build a `Counter` of signatures
`f"{e.get('timestamp','')}_{e.get('type','')}_{e.get('details','')}"`
(insertion-ordered, as Python's `Counter` is), emitting a `missing_fields`
finding for each record lacking any of the four required keys along the way;
then one `duplicate_event` finding per counted signature with count > 1.
All accesses use `.get`, so this detector is total. -/

def signature (r : Record) : String :=
  (r.timestamp.getD "") ++ "_" ++ (r.type_.getD "") ++ "_" ++ (r.details.getD "")

def bump : List (String × Nat) → String → List (String × Nat)
  | [], sig => [(sig, 1)]
  | (k, n) :: rest, sig =>
    if k = sig then (k, n + 1) :: rest else (k, n) :: bump rest sig

def countSig (l : List Record) : List (String × Nat) :=
  l.foldl (fun m r => bump m (signature r)) []

def hasField (r : Record) (f : String) : Bool :=
  if f = "timestamp" then r.timestamp.isSome
  else if f = "source" then r.source.isSome
  else if f = "type" then r.type_.isSome
  else if f = "details" then r.details.isSome
  else false

def required_fields : List String := ["timestamp", "source", "type", "details"]

/-- Python's `str` of a list of strings, e.g. `['source', 'details']`. -/
def pyReprStrList (l : List String) : String :=
  "[" ++ String.intercalate ", " (l.map fun s => "\x27" ++ s ++ "\x27") ++ "]"

def mkMissingAnomaly (now : DateTime) (src : String) (missing : List String)
    (ts : String) : Anomaly :=
  { timestamp := fmtDT now, source := src, type_ := "missing_fields",
    details := "Missing required fields: " ++ pyReprStrList missing
      ++ " in event " ++ ts }

def missingLoop (now : DateTime) (src : String) : List Record → List Anomaly
  | [] => []
  | r :: rest =>
    let missing := required_fields.filter fun f => !hasField r f
    if missing.isEmpty then missingLoop now src rest
    else mkMissingAnomaly now src missing (r.timestamp.getD "unknown")
      :: missingLoop now src rest

def mkDupAnomaly (now : DateTime) (src : String) (sig : String)
    (count : Nat) : Anomaly :=
  { timestamp := fmtDT now, source := src, type_ := "duplicate_event",
    details := "Duplicate event detected " ++ toString count ++ " times: "
      ++ sig.take 50 ++ "..." }

def dupLoop (now : DateTime) (src : String) : List (String × Nat) → List Anomaly
  | [] => []
  | (sig, count) :: rest =>
    if count > 1 then mkDupAnomaly now src sig count :: dupLoop now src rest
    else dupLoop now src rest

def detect_data_inconsistencies (now : DateTime)
    (evidence_data : EvidenceData) : List Anomaly :=
  (evidence_data.map fun p =>
    missingLoop now p.1 p.2 ++ dupLoop now p.1 (countSig p.2)).flatten

/-! ## `calculate_anomaly_severity` (anomaly_analysis.py lines 361-406) -/

structure SeverityScores where
  CRITICAL : Nat
  HIGH : Nat
  MEDIUM : Nat
  LOW : Nat
deriving DecidableEq, Repr

structure SeverityAssessment where
  severity_distribution : SeverityScores
  total_anomalies : Nat
  critical_anomalies : Nat
  high_anomalies : Nat
deriving DecidableEq, Repr

def severity_weights : List (String × String) :=
  [("future_timestamp", "CRITICAL"),
   ("post_deletion_activity", "HIGH"),
   ("timestamp_gap", "MEDIUM"),
   ("duplicate_event", "LOW"),
   ("missing_fields", "MEDIUM")]

/-- `severity_weights.get(anomaly_type, "LOW")`. -/
def severityOf (t : String) : String :=
  ((severity_weights.lookup t).getD "LOW")

def bumpSeverity (s : SeverityScores) (tier : String) : SeverityScores :=
  if tier = "CRITICAL" then { s with CRITICAL := s.CRITICAL + 1 }
  else if tier = "HIGH" then { s with HIGH := s.HIGH + 1 }
  else if tier = "MEDIUM" then { s with MEDIUM := s.MEDIUM + 1 }
  else { s with LOW := s.LOW + 1 }

def calculate_anomaly_severity (anomalies : List Anomaly) : SeverityAssessment :=
  let scores := anomalies.foldl
    (fun s a => bumpSeverity s (severityOf a.type_)) ⟨0, 0, 0, 0⟩
  { severity_distribution := scores,
    total_anomalies := anomalies.length,
    critical_anomalies := scores.CRITICAL,
    high_anomalies := scores.HIGH }

/-! ## Timeline merger (timeline_builder.py lines 18-109)

`build_unified_timeline` concatenates the per-file event lists (adding the
file's source label to records lacking a `source` key), sorts with
`sort_events_chronologically` — `sorted(events, key=lambda x:
x.get('timestamp', ''))`, the raw timestamp string, with `''` for a missing
key — and then assigns `timeline_order = i + 1` by enumeration.  Keys are
strings, so the sort's comparator is total and the `except` branch of
`sort_events_chronologically` is unreachable; Python's stable sort is
modelled by `List.insertionSort` with the reflexive key order. -/

def tsKey (r : Record) : String := r.timestamp.getD ""

/-- Python string comparison: lexicographic by code point. -/
def charListLe : List Char → List Char → Bool
  | [], _ => true
  | _ :: _, [] => false
  | a :: as, b :: bs =>
    if a.toNat < b.toNat then true
    else if b.toNat < a.toNat then false
    else charListLe as bs

def strLe (a b : String) : Bool := charListLe a.data b.data

theorem charListLe_total (as bs : List Char) :
    charListLe as bs = true ∨ charListLe bs as = true := by
  induction as generalizing bs with
  | nil => left; rfl
  | cons a as ih =>
    cases bs with
    | nil => right; rfl
    | cons b bs =>
      rcases Nat.lt_trichotomy a.toNat b.toNat with h | h | h
      · left; simp [charListLe, h]
      · have h1 : ¬ a.toNat < b.toNat := by omega
        have h2 : ¬ b.toNat < a.toNat := by omega
        rcases ih bs with hc | hc
        · left; simp [charListLe, h1, h2, hc]
        · right; simp [charListLe, h1, h2, hc]
      · right; simp [charListLe, h]

theorem charListLe_trans (as bs cs : List Char)
    (h1 : charListLe as bs = true) (h2 : charListLe bs cs = true) :
    charListLe as cs = true := by
  induction as generalizing bs cs with
  | nil => rfl
  | cons a as ih =>
    cases bs with
    | nil => simp [charListLe] at h1
    | cons b bs =>
      cases cs with
      | nil => simp [charListLe] at h2
      | cons c cs =>
        simp only [charListLe] at h1 h2 ⊢
        split_ifs at h1 h2 ⊢ with hab hba hac hca hbc hcb <;>
          first
          | rfl
          | omega
          | (exact ih bs cs h1 h2)

def tsLe (a b : Record) : Prop := strLe (tsKey a) (tsKey b) = true

instance : DecidableRel tsLe := fun a b =>
  inferInstanceAs (Decidable (strLe (tsKey a) (tsKey b) = true))

instance : IsTotal Record tsLe :=
  ⟨fun a b => charListLe_total (tsKey a).data (tsKey b).data⟩

instance : IsTrans Record tsLe :=
  ⟨fun _ _ _ h1 h2 => charListLe_trans _ _ _ h1 h2⟩

def sort_events_chronologically (events : List Record) : List Record :=
  List.insertionSort tsLe events

def build_unified_timeline (files : List (String × List Record)) : List Record :=
  let all_events := (files.map fun p =>
    p.2.map fun e =>
      if e.source.isSome then e else { e with source := some p.1 }).flatten
  let sorted_events := sort_events_chronologically all_events
  sorted_events.enum.map fun q => { q.2 with timeline_order := some (q.1 + 1) }

/-! ## `save_anomaly_report` (anomaly_analysis.py lines 442-459)

The code is `open(output_file, "w")` followed by `json.dump(report, f)`
inside `try/except`: opening with mode `"w"` truncates whatever artifact was
at the path, `json.dump` then streams the serialized report into the file,
and any exception is caught and logged (the run continues).  The file system
effect is embedded explicitly: the target's previous content is a parameter,
and a fault that interrupts the stream after `k` characters is modelled by
`interrupt = some k` (with `k` at least the serialized length meaning the
fault never fires).  The result is the final file content plus a success
flag. -/

def save_anomaly_report (serialized : String) (interrupt : Option Nat)
    (_previous : Option String) : Option String × Bool :=
  match interrupt with
  | none => (some serialized, true)
  | some k =>
    if k < serialized.length then (some (serialized.take k), false)
    else (some serialized, true)

/-! # Theorems

## Claim C8 — timestamp normalizer -/

/-- C8 (counterexample): on a malformed timestamp the normalizer does set
`timestamp_valid=false`, but the `parsed_timestamp` key is *present* with
value `None` — not absent as the claim states. -/
theorem C8_counterexample_parsed_timestamp_present :
    (normRec { timestamp := some "not-a-date" }).timestamp_valid = some false ∧
    (normRec { timestamp := some "not-a-date" }).parsed_timestamp = some none ∧
    (normRec { timestamp := some "not-a-date" }).parsed_timestamp ≠ none := by
  decide

/-- C8 (amended): the normalizer maps each record independently;
`timestamp_valid=true` iff parsing `timestamp` against `YYYY-MM-DD HH:MM:SS`
succeeds, and on failure (wrong format, missing field, or parse exception)
it sets `timestamp_valid=false` and stores `parsed_timestamp` as a *present
key with value `None`*; all other original fields are retained unmodified,
and no record is discarded (per-source output length equals input length). -/
theorem C8_normalize_per_record (evidence_data : EvidenceData) (r : Record) :
    normalize_timestamps evidence_data
        = evidence_data.map (fun p => (p.1, p.2.map normRec)) ∧
    ((normalize_timestamps evidence_data).map fun p => (p.1, p.2.length))
        = (evidence_data.map fun p => (p.1, p.2.length)) ∧
    (normRec r).timestamp_valid = some (r.timestamp.bind parseTimestamp).isSome ∧
    (normRec r).parsed_timestamp = some (r.timestamp.bind parseTimestamp) ∧
    (normRec r).timestamp = r.timestamp ∧
    (normRec r).source = r.source ∧
    (normRec r).type_ = r.type_ ∧
    (normRec r).details = r.details ∧
    (normRec r).extra = r.extra := by
  refine ⟨rfl, ?_, ?_, ?_, ?_, ?_, ?_, ?_, ?_⟩
  · simp [normalize_timestamps]
  all_goals
    cases h : r.timestamp with
    | none => simp [normRec, h]
    | some s =>
      cases hp : parseTimestamp s with
      | none => simp [normRec, h, hp]
      | some t => simp [normRec, h, hp]

/-! ## Claim C2 — timestamp-gap threshold -/

instance {ε α : Type} [DecidableEq ε] [DecidableEq α] : DecidableEq (Except ε α) := fun a b =>
  match a, b with
  | .ok x, .ok y =>
    if h : x = y then .isTrue (by rw [h]) else .isFalse (by simp [h])
  | .error x, .error y =>
    if h : x = y then .isTrue (by rw [h]) else .isFalse (by simp [h])
  | .ok _, .error _ => .isFalse (by simp)
  | .error _, .ok _ => .isFalse (by simp)

/-- A raw evidence record with all four canonical fields, as an extractor
produces it. -/
def mkRawEvt (s : String) : Record :=
  { timestamp := some s, source := some "SMS", type_ := some "incoming",
    details := some "msg" }

/-- C2 (counterexample): two records exactly 24h00m00s apart are *not*
flagged — the code tests `time_diff.total_seconds() > 24 * 3600`, strictly,
while the claim says at-least. -/
theorem C2_counterexample_exact_24h_not_flagged :
    detect_timestamp_gaps ⟨2024, 1, 1, 0, 0, 0⟩ (normalize_timestamps
      [("SMS", [mkRawEvt "2023-06-01 00:00:00", mkRawEvt "2023-06-02 00:00:00"])])
      = .ok [] := by
  decide

/-- C2 (amended): for a source of two valid-timestamp records (in ascending
order), the gap rule emits a `timestamp_gap` finding iff the elapsed
duration is *strictly greater* than the 24-hour threshold: 24h00m01s apart
is flagged, exactly 24h00m00s apart is not, 23h59m59s apart is not.  The
finding reports the gap length in days and the two boundary timestamps. -/
theorem C2_gap_rule_strict (now : DateTime) (src s1 s2 : String) (t1 t2 : DateTime)
    (h1 : parseTimestamp s1 = some t1) (h2 : parseTimestamp s2 = some t2)
    (hle : t1.toSecs ≤ t2.toSecs) :
    detect_timestamp_gaps now (normalize_timestamps [(src, [mkRawEvt s1, mkRawEvt s2])])
      = .ok (if 86400 < (t2.toSecs : Int) - (t1.toSecs : Int) then
          [mkGapAnomaly now src ((t2.toSecs : Int) - (t1.toSecs : Int)) s1 s2]
        else []) := by
  have hnot : ¬ (t2.toSecs < t1.toSecs) := by omega
  simp [detect_timestamp_gaps, normalize_timestamps, normRec, mkRawEvt, h1, h2,
        pyMapE, isTsValid, sortByParsedTs, getParsedTs, pySortE, pyInsertE,
        pyLtKey, hnot, gapPairs, pySubTs, getRawTs, Except.bind, Bind.bind,
        Pure.pure, Except.pure]
  by_cases hc : (86400 : Int) < (t2.toSecs : Int) - (t1.toSecs : Int) <;> simp [hc]

/-- C2 (witness): 24h00m01s apart is flagged, by the amended rule. -/
theorem C2_gap_rule_strict_witness :
    (DateTime.toSecs ⟨2023, 6, 1, 0, 0, 0⟩ ≤ DateTime.toSecs ⟨2023, 6, 2, 0, 0, 1⟩) ∧
    detect_timestamp_gaps ⟨2024, 1, 1, 0, 0, 0⟩ (normalize_timestamps
      [("SMS", [mkRawEvt "2023-06-01 00:00:00", mkRawEvt "2023-06-02 00:00:01"])])
      = .ok [mkGapAnomaly ⟨2024, 1, 1, 0, 0, 0⟩ "SMS" 86401
          "2023-06-01 00:00:00" "2023-06-02 00:00:01"] := by
  refine ⟨by decide, ?_⟩
  have h := C2_gap_rule_strict ⟨2024, 1, 1, 0, 0, 0⟩ "SMS"
    "2023-06-01 00:00:00" "2023-06-02 00:00:01"
    ⟨2023, 6, 1, 0, 0, 0⟩ ⟨2023, 6, 2, 0, 0, 1⟩ (by decide) (by decide) (by decide)
  rw [h]
  decide

/-! ## Claim C3 — the battery on mixed valid/invalid timestamps

`normalize_timestamps` stores `parsed_timestamp=None` for an invalid record,
so in `detect_post_deletion_activity` the sort key
`x.get("parsed_timestamp", datetime.min)` finds the key *present* and
returns `None` (the `datetime.min` default never applies), and Python's sort
then compares `None` with a `datetime`, raising `TypeError`.  On the same
input the other detectors complete normally. -/

/-- C3 (code bug): on a source mixing one valid-timestamp record with one
malformed-timestamp record, `detect_post_deletion_activity` raises
`TypeError` instead of completing — the gap, future-timestamp and
data-integrity rules all complete on the very same input. -/
theorem C3_post_deletion_raises_on_malformed_timestamp :
    (detect_post_deletion_activity ⟨2024, 1, 1, 0, 0, 0⟩ (normalize_timestamps
        [("SMS", [mkRawEvt "2023-06-01 14:22:03",
                  { timestamp := some "not-a-timestamp", source := some "SMS",
                    type_ := some "incoming", details := some "msg" }])])
      = .error "TypeError") ∧
    (detect_timestamp_gaps ⟨2024, 1, 1, 0, 0, 0⟩ (normalize_timestamps
        [("SMS", [mkRawEvt "2023-06-01 14:22:03",
                  { timestamp := some "not-a-timestamp", source := some "SMS",
                    type_ := some "incoming", details := some "msg" }])])
      = .ok []) ∧
    (detect_temporal_inconsistencies ⟨2024, 1, 1, 0, 0, 0⟩ (normalize_timestamps
        [("SMS", [mkRawEvt "2023-06-01 14:22:03",
                  { timestamp := some "not-a-timestamp", source := some "SMS",
                    type_ := some "incoming", details := some "msg" }])])
      = .ok []) ∧
    (detect_data_inconsistencies ⟨2024, 1, 1, 0, 0, 0⟩ (normalize_timestamps
        [("SMS", [mkRawEvt "2023-06-01 14:22:03",
                  { timestamp := some "not-a-timestamp", source := some "SMS",
                    type_ := some "incoming", details := some "msg" }])])
      = []) := by
  refine ⟨by decide, by decide, by decide, by decide⟩

/-! ## Claims C1 and C5 — the timeline merger -/

theorem map_tsKey_enum_order (l : List Record) :
    ((l.enum.map fun q => { q.2 with timeline_order := some (q.1 + 1) }).map tsKey)
      = l.map tsKey := by
  rw [List.map_map]
  have h : (tsKey ∘ fun q : Nat × Record => { q.2 with timeline_order := some (q.1 + 1) })
      = tsKey ∘ Prod.snd := by
    funext q
    simp [tsKey]
  rw [h, ← List.map_map, List.enum_map_snd]

/-- C1 (counterexample): the merger sorts by the *raw timestamp string*
(`x.get('timestamp', '')`), so a record with no timestamp gets key `""` and
sorts *first*; here a valid-timestamp event ends up after a
missing-timestamp event, violating the claimed invalid-records-last order. -/
theorem C1_counterexample_missing_timestamp_sorts_first :
    ((build_unified_timeline [("SMS",
        [mkRawEvt "2023-06-01 14:22:03",
         { type_ := some "incoming", details := some "msg" }])]).map
      fun r => r.timestamp)
      = [none, some "2023-06-01 14:22:03"] ∧
    (parseTimestamp "2023-06-01 14:22:03").isSome := by
  exact ⟨rfl, rfl⟩

/-- C1 (amended): for every input, the merged timeline is sorted ascending
by the raw timestamp string under code-point lexicographic order, a record
with a missing timestamp field contributing the empty string as its key
(and hence sorting first, not last). -/
theorem C1_timeline_sorted_by_raw_timestamp_string
    (files : List (String × List Record)) :
    List.Pairwise (fun a b : String => strLe a b = true)
      ((build_unified_timeline files).map tsKey) := by
  have hs := List.sorted_insertionSort tsLe
    ((files.map fun p => p.2.map fun e =>
      if e.source.isSome then e else { e with source := some p.1 }).flatten)
  simp only [build_unified_timeline, sort_events_chronologically]
  rw [map_tsKey_enum_order]
  exact (List.pairwise_map).mpr hs

/-- C5: the merged timeline loses no records — its length is the sum of the
per-source input counts, for every input (empty sources and
malformed-timestamp records included) — and `timeline_order` is assigned
after the sort as exactly `1..N`, 1-based and unique. -/
theorem C5_no_data_loss_and_timeline_order (files : List (String × List Record)) :
    (build_unified_timeline files).length = (files.map fun p => p.2.length).sum ∧
    ((build_unified_timeline files).map fun r => r.timeline_order)
      = (List.range (files.map fun p => p.2.length).sum).map (fun i => some (i + 1)) := by
  have hlen : (build_unified_timeline files).length = (files.map fun p => p.2.length).sum := by
    simp only [build_unified_timeline, sort_events_chronologically]
    rw [List.length_map, List.enum_length, List.length_insertionSort, List.length_flatten,
        List.map_map]
    have h2 : (List.length ∘ fun p : String × List Record =>
        p.2.map fun e => if e.source.isSome then e else { e with source := some p.1 })
        = fun p : String × List Record => p.2.length := by
      funext p
      simp
    rw [h2]
  refine ⟨hlen, ?_⟩
  have horder : ((build_unified_timeline files).map fun r => r.timeline_order)
      = (List.range (build_unified_timeline files).length).map (fun i => some (i + 1)) := by
    simp only [build_unified_timeline]
    rw [List.map_map, List.length_map]
    have h : ((fun r : Record => r.timeline_order) ∘
        fun q : Nat × Record => { q.2 with timeline_order := some (q.1 + 1) })
        = (fun i => some (i + 1)) ∘ Prod.fst := by
      funext q
      simp
    rw [h, ← List.map_map, List.enum_map_fst, List.enum_length]
  rw [horder, hlen]

/-! ## Claim C4 — detectors and mutation of the shared evidence

Only `detect_post_deletion_activity` contains an in-place operation
(`evidence_list.sort(...)` on the dict's own list); the gap rule sorts a
fresh filtered list, and the future-timestamp and data-integrity rules only
read.  The embedding therefore returns a post-state only for the
post-deletion detector, and that post-state is in general a reordering of
the input. -/

theorem exceptBind_ok {α β : Type} {x : Except String α} {f : α → Except String β} {b : β}
    (h : (x >>= f) = .ok b) : ∃ a, x = .ok a ∧ f a = .ok b := by
  cases x with
  | error e => simp [Bind.bind, Except.bind] at h
  | ok a => exact ⟨a, rfl, by simpa [Bind.bind, Except.bind] using h⟩

theorem pyInsertE_perm {κ α : Type} (lt : κ → κ → Except String Bool)
    (x : κ × α) (l s : List (κ × α)) (h : pyInsertE lt x l = .ok s) :
    s.Perm (x :: l) := by
  induction l generalizing s with
  | nil =>
    simp only [pyInsertE, Except.ok.injEq] at h
    subst h
    exact List.Perm.refl _
  | cons y ys ih =>
    simp only [pyInsertE] at h
    obtain ⟨b, hb, hrest⟩ := exceptBind_ok h
    cases b with
    | true =>
      simp only [if_true] at hrest
      obtain ⟨r, hr, hpure⟩ := exceptBind_ok hrest
      simp only [Pure.pure, Except.pure, Except.ok.injEq] at hpure
      subst hpure
      exact ((ih r hr).cons y).trans (List.Perm.swap x y ys)
    | false =>
      simp only [Bool.false_eq_true, if_false, Pure.pure, Except.pure,
        Except.ok.injEq] at hrest
      subst hrest
      exact List.Perm.refl _

theorem pySortE_perm {κ α : Type} (lt : κ → κ → Except String Bool)
    (l s : List (κ × α)) (h : pySortE lt l = .ok s) : s.Perm l := by
  induction l generalizing s with
  | nil =>
    simp only [pySortE, Except.ok.injEq] at h
    subst h
    exact List.Perm.refl _
  | cons x xs ih =>
    simp only [pySortE] at h
    obtain ⟨t, ht, hins⟩ := exceptBind_ok h
    exact (pyInsertE_perm lt x t s hins).trans ((ih t ht).cons x)

theorem pyMapE_ok_forall₂ {α β : Type} (f : α → Except String β)
    (l : List α) (res : List β) (h : pyMapE f l = .ok res) :
    List.Forall₂ (fun b a => f a = .ok b) res l := by
  induction l generalizing res with
  | nil =>
    simp only [pyMapE, Except.ok.injEq] at h
    subst h
    exact List.Forall₂.nil
  | cons x xs ih =>
    simp only [pyMapE] at h
    obtain ⟨y, hy, hrest⟩ := exceptBind_ok h
    obtain ⟨ys, hys, hpure⟩ := exceptBind_ok hrest
    simp only [Pure.pure, Except.pure, Except.ok.injEq] at hpure
    subst hpure
    exact List.Forall₂.cons hy (ih ys hys)

theorem pdaSource_state (now : DateTime) (p : String × List Record)
    (y : List Anomaly × (String × List Record)) (h : pdaSource now p = .ok y) :
    y.2.1 = p.1 ∧ y.2.2.Perm p.2 := by
  simp only [pdaSource] at h
  obtain ⟨sp, hsp, h1⟩ := exceptBind_ok h
  obtain ⟨dts, hdts, h2⟩ := exceptBind_ok h1
  obtain ⟨ams, hams, h3⟩ := exceptBind_ok h2
  simp only [Pure.pure, Except.pure, Except.ok.injEq] at h3
  subst h3
  refine ⟨rfl, ?_⟩
  have hperm := (pySortE_perm pyLtKey _ sp hsp).map Prod.snd
  have hid : (Prod.snd ∘ fun r : Record => (getParsedTsD r, r)) = id := rfl
  rw [List.map_map, hid, List.map_id] at hperm
  exact hperm

/-- C4 (counterexample): `detect_post_deletion_activity` mutates the shared
normalized evidence — it sorts each source's list in place, so after running
it on a source whose two valid records arrive in reverse chronological order
the evidence lists are reordered (content preserved, order not). -/
theorem C4_counterexample_post_deletion_reorders :
    (detect_post_deletion_activity ⟨2024, 1, 1, 0, 0, 0⟩ (normalize_timestamps
        [("SMS", [mkRawEvt "2023-06-02 00:00:00", mkRawEvt "2023-06-01 00:00:00"])])
      = .ok ([], normalize_timestamps
        [("SMS", [mkRawEvt "2023-06-01 00:00:00", mkRawEvt "2023-06-02 00:00:00"])])) ∧
    normalize_timestamps
        [("SMS", [mkRawEvt "2023-06-01 00:00:00", mkRawEvt "2023-06-02 00:00:00"])]
      ≠ normalize_timestamps
        [("SMS", [mkRawEvt "2023-06-02 00:00:00", mkRawEvt "2023-06-01 00:00:00"])] := by
  exact ⟨rfl, by decide⟩

/-- C4 (amended): the timestamp-gap, future-timestamp and data-integrity
detectors read the evidence without mutating it (their embeddings are pure
readers, the gap rule sorting only a fresh filtered copy);
`detect_post_deletion_activity`, however, sorts each source's list in place:
whenever it completes, its post-state keeps every source key in place and
keeps each source's records as a permutation of the input list — the content
is preserved but the order in general is not. -/
theorem C4_only_post_deletion_mutates (now : DateTime) (E : EvidenceData)
    (out : List Anomaly × EvidenceData)
    (h : detect_post_deletion_activity now E = .ok out) :
    List.Forall₂ (fun q p : String × List Record => q.1 = p.1 ∧ q.2.Perm p.2)
      out.2 E := by
  simp only [detect_post_deletion_activity] at h
  obtain ⟨results, hres, hpure⟩ := exceptBind_ok h
  simp only [Pure.pure, Except.pure, Except.ok.injEq] at hpure
  subst hpure
  have hf := pyMapE_ok_forall₂ (pdaSource now) E results hres
  rw [List.forall₂_map_left_iff]
  exact hf.imp fun y p hy => pdaSource_state now p y hy

/-- C4 (witness): the amended statement at the concrete reordering input. -/
theorem C4_only_post_deletion_mutates_witness :
    List.Forall₂ (fun q p : String × List Record => q.1 = p.1 ∧ q.2.Perm p.2)
      (normalize_timestamps
        [("SMS", [mkRawEvt "2023-06-01 00:00:00", mkRawEvt "2023-06-02 00:00:00"])])
      (normalize_timestamps
        [("SMS", [mkRawEvt "2023-06-02 00:00:00", mkRawEvt "2023-06-01 00:00:00"])]) :=
  C4_only_post_deletion_mutates ⟨2024, 1, 1, 0, 0, 0⟩
    (normalize_timestamps
      [("SMS", [mkRawEvt "2023-06-02 00:00:00", mkRawEvt "2023-06-01 00:00:00"])])
    ([], normalize_timestamps
      [("SMS", [mkRawEvt "2023-06-01 00:00:00", mkRawEvt "2023-06-02 00:00:00"])])
    rfl

/-! ## Claims C6 and C10 — the data-integrity rule -/

theorem lookup_bump (m : List (String × Nat)) (sig key : String) :
    ((bump m sig).lookup key).getD 0
      = ((m.lookup key).getD 0) + (if sig = key then 1 else 0) := by
  induction m with
  | nil =>
    by_cases h : sig = key
    · subst h
      simp [bump, List.lookup]
    · have h2 : ¬ key = sig := fun e => h e.symm
      have hb : (key == sig) = false := by simp [h2]
      simp [bump, List.lookup, h, hb]
  | cons p rest ih =>
    obtain ⟨k, n⟩ := p
    by_cases hk : k = sig
    · subst hk
      by_cases hkey : k = key
      · subst hkey
        simp [bump, List.lookup]
      · have h2 : ¬ key = k := fun e => hkey e.symm
        have hb : (key == k) = false := by simp [h2]
        simp [bump, List.lookup, hkey, hb]
    · by_cases hkey : k = key
      · subst hkey
        have hsig : ¬ sig = k := fun e => hk e.symm
        simp [bump, List.lookup, hk, hsig]
      · have h2 : ¬ key = k := fun e => hkey e.symm
        have hb : (key == k) = false := by simp [h2]
        simp [bump, List.lookup, hk, hb, ih]

theorem countSig_go (l : List Record) (m : List (String × Nat)) (key : String) :
    (((l.foldl (fun m r => bump m (signature r)) m)).lookup key).getD 0
      = ((m.lookup key).getD 0) + (l.filter (fun r => signature r == key)).length := by
  induction l generalizing m with
  | nil => simp
  | cons r rest ih =>
    simp only [List.foldl_cons, List.filter_cons]
    rw [ih, lookup_bump]
    by_cases h : signature r = key
    · simp only [h, if_pos rfl, beq_self_eq_true, if_true, List.length_cons]
      omega
    · have h2 : ¬ (signature r == key) = true := by simp [h]
      simp [h, h2]

theorem mem_keys_bump (m : List (String × Nat)) (sig k : String) :
    k ∈ (bump m sig).map Prod.fst ↔ (k ∈ m.map Prod.fst ∨ k = sig) := by
  induction m with
  | nil => simp [bump, eq_comm]
  | cons p rest ih =>
    obtain ⟨k0, n⟩ := p
    by_cases hk : k0 = sig
    · subst hk
      have hb : bump ((k0, n) :: rest) k0 = (k0, n + 1) :: rest := by simp [bump]
      rw [hb]
      simp only [List.map_cons, List.mem_cons]
      tauto
    · have hb : bump ((k0, n) :: rest) sig = (k0, n) :: bump rest sig := by
        simp [bump, hk]
      rw [hb]
      simp only [List.map_cons, List.mem_cons, ih, or_assoc]

theorem keys_bump_nodup (m : List (String × Nat)) (sig : String)
    (h : (m.map Prod.fst).Nodup) : ((bump m sig).map Prod.fst).Nodup := by
  induction m with
  | nil => simp [bump]
  | cons p rest ih =>
    obtain ⟨k0, n⟩ := p
    simp only [List.map_cons, List.nodup_cons] at h
    by_cases hk : k0 = sig
    · subst hk
      have hb : bump ((k0, n) :: rest) k0 = (k0, n + 1) :: rest := by simp [bump]
      rw [hb]
      simp only [List.map_cons, List.nodup_cons]
      exact h
    · have hb : bump ((k0, n) :: rest) sig = (k0, n) :: bump rest sig := by
        simp [bump, hk]
      rw [hb]
      simp only [List.map_cons, List.nodup_cons]
      refine ⟨?_, ih h.2⟩
      rw [mem_keys_bump]
      rintro (hm | he)
      · exact h.1 hm
      · exact hk he

theorem countSig_keys_nodup_go (l : List Record) (m : List (String × Nat))
    (h : (m.map Prod.fst).Nodup) :
    (((l.foldl (fun m r => bump m (signature r)) m)).map Prod.fst).Nodup := by
  induction l generalizing m with
  | nil => exact h
  | cons r rest ih =>
    simp only [List.foldl_cons]
    exact ih _ (keys_bump_nodup m (signature r) h)

theorem dupLoop_eq (now : DateTime) (src : String) (m : List (String × Nat)) :
    dupLoop now src m
      = (m.filter fun p => decide (1 < p.2)).map fun p => mkDupAnomaly now src p.1 p.2 := by
  induction m with
  | nil => rfl
  | cons p rest ih =>
    obtain ⟨sig, c⟩ := p
    by_cases h : c > 1
    · simp [dupLoop, h, ih]
    · simp [dupLoop, h, ih]

theorem missingLoop_types (now : DateTime) (src : String) (l : List Record) :
    ∀ a ∈ missingLoop now src l, a.type_ = "missing_fields" := by
  induction l with
  | nil =>
    intro a ha
    simp [missingLoop] at ha
  | cons r rest ih =>
    intro a ha
    simp only [missingLoop] at ha
    split at ha
    · exact ih a ha
    · rcases List.mem_cons.mp ha with rfl | ha2
      · rfl
      · exact ih a ha2

/-- C6: per source, the data-integrity rule emits exactly one
`duplicate_event` finding per distinct signature occurring more than once —
the findings of that type are in bijection with the multiply-occurring
entries of the (duplicate-free-keyed) signature counter, each reporting its
occurrence count — while signatures occurring once yield none; three
identical CALL records yield exactly one finding with count 3. -/
theorem C6_one_finding_per_duplicate_signature (now : DateTime) (src : String) (evidence : List Record) :
    ((detect_data_inconsistencies now [(src, evidence)]).filter
        (fun a => a.type_ == "duplicate_event"))
      = ((countSig evidence).filter (fun p => decide (1 < p.2))).map
          (fun p => mkDupAnomaly now src p.1 p.2) ∧
    ((countSig evidence).map Prod.fst).Nodup ∧
    (∀ sig : String, ((countSig evidence).lookup sig).getD 0
        = (evidence.filter (fun r => signature r == sig)).length) ∧
    detect_data_inconsistencies now [("CALL",
        [mkRawEvt "2023-06-01 00:00:00", mkRawEvt "2023-06-01 00:00:00",
         mkRawEvt "2023-06-01 00:00:00"])]
      = [mkDupAnomaly now "CALL" (signature (mkRawEvt "2023-06-01 00:00:00")) 3] := by
  refine ⟨?_, countSig_keys_nodup_go evidence [] (by simp), ?_, rfl⟩
  · simp only [detect_data_inconsistencies, List.map_cons, List.map_nil,
      List.flatten, List.append_nil, List.filter_append]
    have h1 : (missingLoop now src evidence).filter
        (fun a => a.type_ == "duplicate_event") = [] := by
      rw [List.filter_eq_nil_iff]
      intro a ha
      have := missingLoop_types now src evidence a ha
      simp [this]
    have h2 : (dupLoop now src (countSig evidence)).filter
        (fun a => a.type_ == "duplicate_event")
        = dupLoop now src (countSig evidence) := by
      rw [List.filter_eq_self]
      intro a ha
      rw [dupLoop_eq] at ha
      simp only [List.mem_map] at ha
      obtain ⟨p, hp, rfl⟩ := ha
      simp [mkDupAnomaly]
    rw [h1, h2, dupLoop_eq]
    simp
  · intro sig
    simpa [countSig] using countSig_go evidence [] sig

/-! ## Claims C7, C9 and C10 -/

/-- C10: the duplicate signature `f"{timestamp}_{type}_{details}"` is not
injective — a `'_'` inside a field shifts content between `type` and
`details`: two field-wise different records share the signature `t_a_b_c`
and the data-integrity rule reports them as one `duplicate_event` with
count 2 even though the records are not identical. -/
theorem C10_signature_collision_reported_as_duplicate :
    ({ timestamp := some "t", source := some "SMS", type_ := some "a_b",
       details := some "c" } : Record)
      ≠ { timestamp := some "t", source := some "SMS", type_ := some "a",
          details := some "b_c" } ∧
    signature ({ timestamp := some "t", source := some "SMS",
                 type_ := some "a_b", details := some "c" } : Record)
      = signature ({ timestamp := some "t", source := some "SMS",
                     type_ := some "a", details := some "b_c" } : Record) ∧
    detect_data_inconsistencies ⟨2024, 1, 1, 0, 0, 0⟩
        [("SMS",
          [{ timestamp := some "t", source := some "SMS", type_ := some "a_b",
             details := some "c" },
           { timestamp := some "t", source := some "SMS", type_ := some "a",
             details := some "b_c" }])]
      = [mkDupAnomaly ⟨2024, 1, 1, 0, 0, 0⟩ "SMS" "t_a_b_c" 2] := by
  exact ⟨by decide, rfl, rfl⟩

theorem severityOf_mem (t : String) :
    severityOf t = "CRITICAL" ∨ severityOf t = "HIGH" ∨
    severityOf t = "MEDIUM" ∨ severityOf t = "LOW" := by
  simp only [severityOf, severity_weights, List.lookup]
  by_cases h1 : t = "future_timestamp"
  · simp [h1]
  · have hb1 : (t == "future_timestamp") = false := by simp [h1]
    by_cases h2 : t = "post_deletion_activity"
    · simp [h2]
    · have hb2 : (t == "post_deletion_activity") = false := by simp [h2]
      by_cases h3 : t = "timestamp_gap"
      · simp [h3]
      · have hb3 : (t == "timestamp_gap") = false := by simp [h3]
        by_cases h4 : t = "duplicate_event"
        · simp [h4]
        · have hb4 : (t == "duplicate_event") = false := by simp [h4]
          by_cases h5 : t = "missing_fields"
          · simp [h5]
          · have hb5 : (t == "missing_fields") = false := by simp [h5]
            simp [hb1, hb2, hb3, hb4, hb5]

theorem bumpSeverity_CRITICAL (s : SeverityScores) (t : String) :
    (bumpSeverity s t).CRITICAL = s.CRITICAL + (if t = "CRITICAL" then 1 else 0) := by
  unfold bumpSeverity
  split_ifs <;> simp_all

theorem bumpSeverity_HIGH (s : SeverityScores) (t : String) :
    (bumpSeverity s t).HIGH = s.HIGH + (if t = "HIGH" then 1 else 0) := by
  unfold bumpSeverity
  split_ifs <;> simp_all

theorem bumpSeverity_MEDIUM (s : SeverityScores) (t : String) :
    (bumpSeverity s t).MEDIUM = s.MEDIUM + (if t = "MEDIUM" then 1 else 0) := by
  unfold bumpSeverity
  split_ifs <;> simp_all

theorem bumpSeverity_LOW (s : SeverityScores) (t : String) :
    (bumpSeverity s t).LOW = s.LOW +
      (if t ≠ "CRITICAL" ∧ t ≠ "HIGH" ∧ t ≠ "MEDIUM" then 1 else 0) := by
  unfold bumpSeverity
  split_ifs <;> simp_all

theorem calcSev_go (l : List Anomaly) (s : SeverityScores) :
    ((l.foldl (fun s a => bumpSeverity s (severityOf a.type_)) s).CRITICAL
        = s.CRITICAL + (l.filter fun a => severityOf a.type_ == "CRITICAL").length) ∧
    ((l.foldl (fun s a => bumpSeverity s (severityOf a.type_)) s).HIGH
        = s.HIGH + (l.filter fun a => severityOf a.type_ == "HIGH").length) ∧
    ((l.foldl (fun s a => bumpSeverity s (severityOf a.type_)) s).MEDIUM
        = s.MEDIUM + (l.filter fun a => severityOf a.type_ == "MEDIUM").length) ∧
    ((l.foldl (fun s a => bumpSeverity s (severityOf a.type_)) s).LOW
        = s.LOW + (l.filter fun a => severityOf a.type_ == "LOW").length) := by
  induction l generalizing s with
  | nil => simp
  | cons a rest ih =>
    obtain ⟨i1, i2, i3, i4⟩ := ih (bumpSeverity s (severityOf a.type_))
    have hv4 := severityOf_mem a.type_
    refine ⟨?_, ?_, ?_, ?_⟩
    · rw [List.foldl_cons, i1, bumpSeverity_CRITICAL, List.filter_cons]
      rcases hv4 with hv | hv | hv | hv <;> simp [hv]
      all_goals omega
    · rw [List.foldl_cons, i2, bumpSeverity_HIGH, List.filter_cons]
      rcases hv4 with hv | hv | hv | hv <;> simp [hv]
      all_goals omega
    · rw [List.foldl_cons, i3, bumpSeverity_MEDIUM, List.filter_cons]
      rcases hv4 with hv | hv | hv | hv <;> simp [hv]
      all_goals omega
    · rw [List.foldl_cons, i4, bumpSeverity_LOW, List.filter_cons]
      rcases hv4 with hv | hv | hv | hv <;> simp [hv]
      all_goals omega

/-- C7: the severity classifier follows the fixed table (future_timestamp
CRITICAL, post_deletion_activity HIGH, timestamp_gap MEDIUM, missing_fields
MEDIUM, duplicate_event LOW, everything else LOW), each tier's count is the
number of anomalies mapping to it, the total is the list length, and the
spec's worked example (1 future_timestamp + 2 timestamp_gap) yields
CRITICAL 1, HIGH 0, MEDIUM 2, LOW 0, total 3. -/
theorem C7_severity_fixed_table_and_counts (anomalies : List Anomaly) :
    ((calculate_anomaly_severity anomalies).severity_distribution.CRITICAL
        = (anomalies.filter fun a => severityOf a.type_ == "CRITICAL").length ∧
      (calculate_anomaly_severity anomalies).severity_distribution.HIGH
        = (anomalies.filter fun a => severityOf a.type_ == "HIGH").length ∧
      (calculate_anomaly_severity anomalies).severity_distribution.MEDIUM
        = (anomalies.filter fun a => severityOf a.type_ == "MEDIUM").length ∧
      (calculate_anomaly_severity anomalies).severity_distribution.LOW
        = (anomalies.filter fun a => severityOf a.type_ == "LOW").length ∧
      (calculate_anomaly_severity anomalies).total_anomalies = anomalies.length ∧
      (calculate_anomaly_severity anomalies).critical_anomalies
        = (calculate_anomaly_severity anomalies).severity_distribution.CRITICAL ∧
      (calculate_anomaly_severity anomalies).high_anomalies
        = (calculate_anomaly_severity anomalies).severity_distribution.HIGH ∧
      severityOf "future_timestamp" = "CRITICAL" ∧
      severityOf "post_deletion_activity" = "HIGH" ∧
      severityOf "timestamp_gap" = "MEDIUM" ∧
      severityOf "missing_fields" = "MEDIUM" ∧
      severityOf "duplicate_event" = "LOW" ∧
      calculate_anomaly_severity
          [⟨"", "SMS", "future_timestamp", ""⟩, ⟨"", "SMS", "timestamp_gap", ""⟩,
           ⟨"", "SMS", "timestamp_gap", ""⟩]
        = ⟨⟨1, 0, 2, 0⟩, 3, 1, 0⟩) ∧
    (∀ u : String, u ≠ "future_timestamp" → u ≠ "post_deletion_activity" →
      u ≠ "timestamp_gap" → u ≠ "duplicate_event" → u ≠ "missing_fields" →
      severityOf u = "LOW") := by
  constructor
  · obtain ⟨i1, i2, i3, i4⟩ := calcSev_go anomalies ⟨0, 0, 0, 0⟩
    exact ⟨by simpa using i1, by simpa using i2, by simpa using i3, by simpa using i4,
      rfl, rfl, rfl, by decide, by decide, by decide, by decide, by decide, by decide⟩
  · intro u h1 h2 h3 h4 h5
    have hb1 : (u == "future_timestamp") = false := by simp [h1]
    have hb2 : (u == "post_deletion_activity") = false := by simp [h2]
    have hb3 : (u == "timestamp_gap") = false := by simp [h3]
    have hb4 : (u == "duplicate_event") = false := by simp [h4]
    have hb5 : (u == "missing_fields") = false := by simp [h5]
    simp [severityOf, severity_weights, List.lookup, hb1, hb2, hb3, hb4, hb5]

/-- C7 (witness): the fail-open default at a concrete unrecognized type. -/
theorem C7_severity_fixed_table_and_counts_witness :
    severityOf "unknown_type" = "LOW" :=
  (C7_severity_fixed_table_and_counts []).2 "unknown_type"
    (by decide) (by decide) (by decide) (by decide) (by decide)

/-- C9 (amended): `save_anomaly_report` opens the target with mode `"w"`
(truncating any previously-written artifact regardless of outcome) and
streams the report directly into it; a failure after `k` characters is
caught and logged, leaving the `k`-character partial report in place — there
is no write-then-rename discipline, so persistence is not atomic. -/
theorem C9_save_report_not_atomic (serialized prev : String) (k : Nat)
    (hk : k < serialized.length) :
    save_anomaly_report serialized (some k) (some prev)
        = (some (serialized.take k), false) ∧
    save_anomaly_report serialized none (some prev) = (some serialized, true) := by
  simp [save_anomaly_report, hk]

/-- C9 (counterexample): a write interrupted mid-stream persists a file that
is neither empty, nor the complete report, nor the previously-written
artifact — a partial report survives and the old artifact is destroyed. -/
theorem C9_counterexample_partial_write_persists :
    save_anomaly_report "\x7b\"total_anomalies\": 3\x7d" (some 5) (some "old-report")
      = (some "\x7b\"tot", false) ∧
    ("\x7b\"tot" : String) ≠ "" ∧
    ("\x7b\"tot" : String) ≠ "\x7b\"total_anomalies\": 3\x7d" ∧
    ("\x7b\"tot" : String) ≠ "old-report" := by
  refine ⟨?_, by decide, by decide, by decide⟩
  decide

/-- C9 (witness): the amended statement at the concrete interrupted write. -/
theorem C9_save_report_not_atomic_witness :
    (5 < ("\x7b\"total_anomalies\": 3\x7d" : String).length) ∧
    save_anomaly_report "\x7b\"total_anomalies\": 3\x7d" (some 5) (some "old-report")
      = (some (("\x7b\"total_anomalies\": 3\x7d" : String).take 5), false) := by
  refine ⟨by decide, ?_⟩
  exact (C9_save_report_not_atomic "\x7b\"total_anomalies\": 3\x7d" "old-report" 5 (by decide)).1
